import Mathlib

/-!
Verification development for the AIOpsAnalyzer repository.

The repository is a Kubernetes operator that gathers evidence about a target
workload (filtered pod snapshots, Prometheus alerts, Loki error logs),
assembles an evidence report, asks an LLM for a remediation decision, parses
the JSON response into either a heal or a noop outcome, and dispatches a
Feishu notification card for heal outcomes.

This file shallowly embeds the relevant Go functions:
  - `ParseAutoHealResponse` (internal/controller/llm, two-phase JSON decode);
  - `FilterPodFields`, `BuildEventString`, `GetTargetPods`
    (internal/controller/aiopsanalyzer_controller.go);
  - the notification payload construction in `Reconcile` and the standalone
    `CreateHealActionCardMessage` helper.

Go's `encoding/json` syntax parsing is an external library boundary: a
response text is embedded as `Option Json`, where `none` models text that is
not syntactically valid JSON and `some j` models text whose parsed JSON value
is `j`.  The value-to-struct decoding step of `json.Unmarshal` (field-tag
matching, case-insensitive fallback, type errors, null no-ops, unknown keys
ignored, later duplicate keys overwriting earlier ones) is embedded
explicitly below, since the parser's behaviour depends on it.
-/

/-- A JSON value, as produced by Go's `encoding/json` syntax phase.
Numbers are embedded as `Int`: no claim inspects numeric payloads, they are
only stored opaquely in `any`-typed fields or rejected by typed fields. -/
inductive Json where
  | null : Json
  | bool (b : Bool) : Json
  | num (n : Int) : Json
  | str (s : String) : Json
  | arr (elems : List Json) : Json
  | obj (fields : List (String × Json)) : Json

/-- Go `json.Unmarshal` of a JSON value into a `string` struct field:
a JSON string replaces the current value, JSON null is a no-op (the field
keeps its current value), anything else is an unmarshal type error. -/
def decodeStringInto (cur : String) : Json → Except String String
  | .str s => .ok s
  | .null => .ok cur
  | _ => .error "cannot unmarshal value into Go string field"

/-- ASCII lowercasing of one character (Go field-name folding on the ASCII
tags used by these structs). -/
def lowerChar (c : Char) : Char :=
  if 65 ≤ c.toNat ∧ c.toNat ≤ 90 then Char.ofNat (c.toNat + 32) else c

def eqFoldChars : List Char → List Char → Bool
  | [], [] => true
  | a :: as, b :: bs => (lowerChar a == lowerChar b) && eqFoldChars as bs
  | _, _ => false

/-- Go's `encoding/json` matches an object key against a struct field tag
case-insensitively (`strings.EqualFold`); the tags here are ASCII. -/
def keyMatches (key tag : String) : Bool :=
  eqFoldChars key.data tag.data

/-- The discriminant subset decoded first by `ParseAutoHealResponse`:
`type base struct { Action string; Reason string }`. -/
structure BaseResp where
  Action : String
  Reason : String
deriving Repr, DecidableEq

/-- Decoding of one JSON object key into the `base` struct.  Go matches
field tags case-insensitively; unknown keys are ignored. -/
def baseStep (acc : BaseResp) (kv : String × Json) : Except String BaseResp :=
  if keyMatches kv.1 "action" then
    match decodeStringInto acc.Action kv.2 with
    | .error e => .error e
    | .ok v => .ok { acc with Action := v }
  else if keyMatches kv.1 "reason" then
    match decodeStringInto acc.Reason kv.2 with
    | .error e => .error e
    | .ok v => .ok { acc with Reason := v }
  else .ok acc

/-- Left fold of `baseStep` over an object's keys, stopping at the first
unmarshal error (Go reports the first decode error it encounters). -/
def baseFold (acc : BaseResp) : List (String × Json) → Except String BaseResp
  | [] => .ok acc
  | kv :: rest =>
    match baseStep acc kv with
    | .error e => .error e
    | .ok acc2 => baseFold acc2 rest

/-- Go `json.Unmarshal(jsonStr, &b)` for the `base` struct: JSON null is a
no-op leaving the zero value, a JSON object decodes key by key, any other
top-level value is an unmarshal type error. -/
def unmarshalBase : Json → Except String BaseResp
  | .null => .ok ⟨"", ""⟩
  | .obj kvs => baseFold ⟨"", ""⟩ kvs
  | _ => .error "cannot unmarshal value into Go struct base"

/-- Go `type PatchOp struct \x7b Op, Path string; Value any \x7d` — one element of a
JSON-Patch-like sequence; `Value` is schema-free and stored verbatim. -/
structure PatchOp where
  Op : String
  Path : String
  Value : Json

/-- Go `type Target struct \x7b Kind, LabelSelector string \x7d` (llm package). -/
structure Target where
  Kind : String
  LabelSelector : String
deriving Repr, DecidableEq

/-- Go `type HealAction struct` — the full heal response shape. -/
structure HealAction where
  Namespace : String
  Action : String
  Reason : String
  Detail : String
  PatchFile : String
  PatchContent : List PatchOp
  Target : Target
  SuggestedDuration : String
  RiskLevel : String

/-- Go `type NoopAction struct \x7b Action, Reason string \x7d`. -/
structure NoopAction where
  Action : String
  Reason : String
deriving Repr, DecidableEq

/-- Decoding of one JSON object key into the llm `Target` struct
(tags `kind`, `labelSelector`, matched case-insensitively). -/
def targetStep (acc : Target) (kv : String × Json) : Except String Target :=
  if keyMatches kv.1 "kind" then
    match decodeStringInto acc.Kind kv.2 with
    | .error e => .error e
    | .ok v => .ok { acc with Kind := v }
  else if keyMatches kv.1 "labelselector" then
    match decodeStringInto acc.LabelSelector kv.2 with
    | .error e => .error e
    | .ok v => .ok { acc with LabelSelector := v }
  else .ok acc

def targetFold (acc : Target) : List (String × Json) → Except String Target
  | [] => .ok acc
  | kv :: rest =>
    match targetStep acc kv with
    | .error e => .error e
    | .ok acc2 => targetFold acc2 rest

/-- Unmarshal a JSON value into an (existing) `Target` struct field. -/
def decodeTargetInto (cur : Target) : Json → Except String Target
  | .null => .ok cur
  | .obj kvs => targetFold cur kvs
  | _ => .error "cannot unmarshal value into Go struct Target"

/-- Decoding of one JSON object key into a `PatchOp` struct
(tags `op`, `path`, `value`; `value` has type `any`, so every JSON value is
accepted and stored verbatim). -/
def patchOpStep (acc : PatchOp) (kv : String × Json) : Except String PatchOp :=
  if keyMatches kv.1 "op" then
    match decodeStringInto acc.Op kv.2 with
    | .error e => .error e
    | .ok v => .ok { acc with Op := v }
  else if keyMatches kv.1 "path" then
    match decodeStringInto acc.Path kv.2 with
    | .error e => .error e
    | .ok v => .ok { acc with Path := v }
  else if keyMatches kv.1 "value" then
    .ok { acc with Value := kv.2 }
  else .ok acc

def patchOpFold (acc : PatchOp) : List (String × Json) → Except String PatchOp
  | [] => .ok acc
  | kv :: rest =>
    match patchOpStep acc kv with
    | .error e => .error e
    | .ok acc2 => patchOpFold acc2 rest

/-- Unmarshal a JSON value into a fresh `PatchOp` (slice elements start
from the zero value; JSON null is a no-op leaving the zero value). -/
def decodePatchOp : Json → Except String PatchOp
  | .null => .ok ⟨"", "", .null⟩
  | .obj kvs => patchOpFold ⟨"", "", .null⟩ kvs
  | _ => .error "cannot unmarshal value into Go struct PatchOp"

def decodePatchOpList : List Json → Except String (List PatchOp)
  | [] => .ok []
  | j :: rest =>
    match decodePatchOp j with
    | .error e => .error e
    | .ok op =>
      match decodePatchOpList rest with
      | .error e => .error e
      | .ok ops => .ok (op :: ops)

/-- Unmarshal a JSON value into a `[]PatchOp` field: an array decodes
element-wise, null is a no-op keeping the current (nil) slice, anything
else is a type error. -/
def decodePatchContentInto (cur : List PatchOp) :
    Json → Except String (List PatchOp)
  | .null => .ok cur
  | .arr elems => decodePatchOpList elems
  | _ => .error "cannot unmarshal value into Go slice of PatchOp"

/-- Decoding of one JSON object key into the `HealAction` struct.  Tags:
`namespace`, `action`, `reason`, `detail`, `patch_file`, `patch_content`,
`target`, `suggested_duration`, `risk_level`. -/
def healStep (acc : HealAction) (kv : String × Json) :
    Except String HealAction :=
  if keyMatches kv.1 "namespace" then
    match decodeStringInto acc.Namespace kv.2 with
    | .error e => .error e
    | .ok v => .ok { acc with Namespace := v }
  else if keyMatches kv.1 "action" then
    match decodeStringInto acc.Action kv.2 with
    | .error e => .error e
    | .ok v => .ok { acc with Action := v }
  else if keyMatches kv.1 "reason" then
    match decodeStringInto acc.Reason kv.2 with
    | .error e => .error e
    | .ok v => .ok { acc with Reason := v }
  else if keyMatches kv.1 "detail" then
    match decodeStringInto acc.Detail kv.2 with
    | .error e => .error e
    | .ok v => .ok { acc with Detail := v }
  else if keyMatches kv.1 "patch_file" then
    match decodeStringInto acc.PatchFile kv.2 with
    | .error e => .error e
    | .ok v => .ok { acc with PatchFile := v }
  else if keyMatches kv.1 "patch_content" then
    match decodePatchContentInto acc.PatchContent kv.2 with
    | .error e => .error e
    | .ok v => .ok { acc with PatchContent := v }
  else if keyMatches kv.1 "target" then
    match decodeTargetInto acc.Target kv.2 with
    | .error e => .error e
    | .ok v => .ok { acc with Target := v }
  else if keyMatches kv.1 "suggested_duration" then
    match decodeStringInto acc.SuggestedDuration kv.2 with
    | .error e => .error e
    | .ok v => .ok { acc with SuggestedDuration := v }
  else if keyMatches kv.1 "risk_level" then
    match decodeStringInto acc.RiskLevel kv.2 with
    | .error e => .error e
    | .ok v => .ok { acc with RiskLevel := v }
  else .ok acc

def healFold (acc : HealAction) :
    List (String × Json) → Except String HealAction
  | [] => .ok acc
  | kv :: rest =>
    match healStep acc kv with
    | .error e => .error e
    | .ok acc2 => healFold acc2 rest

/-- The zero value of `HealAction` (fresh `var heal HealAction`). -/
def healZero : HealAction :=
  ⟨"", "", "", "", "", [], ⟨"", ""⟩, "", ""⟩

/-- Go `ParseJSONTo(jsonStr, &heal)`: unmarshal into a fresh `HealAction`. -/
def unmarshalHeal : Json → Except String HealAction
  | .null => .ok healZero
  | .obj kvs => healFold healZero kvs
  | _ => .error "cannot unmarshal value into Go struct HealAction"

/-- Decoding of one JSON object key into the `NoopAction` struct. -/
def noopStep (acc : NoopAction) (kv : String × Json) :
    Except String NoopAction :=
  if keyMatches kv.1 "action" then
    match decodeStringInto acc.Action kv.2 with
    | .error e => .error e
    | .ok v => .ok { acc with Action := v }
  else if keyMatches kv.1 "reason" then
    match decodeStringInto acc.Reason kv.2 with
    | .error e => .error e
    | .ok v => .ok { acc with Reason := v }
  else .ok acc

def noopFold (acc : NoopAction) :
    List (String × Json) → Except String NoopAction
  | [] => .ok acc
  | kv :: rest =>
    match noopStep acc kv with
    | .error e => .error e
    | .ok acc2 => noopFold acc2 rest

/-- Go `ParseJSONTo(jsonStr, &noop)`: unmarshal into a fresh `NoopAction`. -/
def unmarshalNoop : Json → Except String NoopAction
  | .null => .ok ⟨"", ""⟩
  | .obj kvs => noopFold ⟨"", ""⟩ kvs
  | _ => .error "cannot unmarshal value into Go struct NoopAction"

/-- The two decision-outcome variants returned by `ParseAutoHealResponse`
(`*HealAction` or `*NoopAction` behind Go's `any`). -/
inductive Outcome where
  | heal (h : HealAction) : Outcome
  | noop (n : NoopAction) : Outcome

/-- The error sites of `ParseAutoHealResponse`, one constructor per
`fmt.Errorf` in the source:
`parseBase` wraps "parse base failed: %w", `unmarshalFailed` wraps
"json unmarshal failed: %w" from `ParseJSONTo`, `invalidRiskLevel` is
"invalid risk_level: %s", `unknownAction` is "unknown action: %s". -/
inductive AutoHealErr where
  | parseBase (msg : String) : AutoHealErr
  | unmarshalFailed (msg : String) : AutoHealErr
  | invalidRiskLevel (level : String) : AutoHealErr
  | unknownAction (action : String) : AutoHealErr

/-- Go `ParseAutoHealResponse(jsonStr)`.  The input is `none` when the response
text is not syntactically valid JSON (so even the base unmarshal fails with
a syntax error), `some j` when it parses to the JSON value `j`.  Mirrors the
Go source: base decode of `{action, reason}`, then branch on `action`;
`"heal"` re-decodes the full shape and validates `risk_level`; `"noop"`
re-decodes the minimal shape; anything else is the unknown-action error. -/
def ParseAutoHealResponse : Option Json → Except AutoHealErr Outcome
  | none => .error (.parseBase "invalid JSON syntax")
  | some j =>
    match unmarshalBase j with
    | .error m => .error (.parseBase m)
    | .ok b =>
      if b.Action == "heal" then
        match unmarshalHeal j with
        | .error m => .error (.unmarshalFailed m)
        | .ok heal =>
          if heal.RiskLevel != "low" && heal.RiskLevel != "medium" &&
              heal.RiskLevel != "high" then
            .error (.invalidRiskLevel heal.RiskLevel)
          else
            .ok (.heal heal)
      else if b.Action == "noop" then
        match unmarshalNoop j with
        | .error m => .error (.unmarshalFailed m)
        | .ok noop => .ok (.noop noop)
      else
        .error (.unknownAction b.Action)

/-! Pod model and `FilterPodFields`. -/

/-- The subset of `metav1.ObjectMeta` read or written by the controller:
identity fields plus the mutable cluster bookkeeping fields that
`FilterPodFields` strips.  `ManagedFields` / `OwnerReferences` entries are
opaque payloads (never inspected), embedded as strings. -/
structure ObjectMeta where
  Name : String
  Namespace : String
  Labels : List (String × String)
  ManagedFields : List String
  ResourceVersion : String
  UID : String
  CreationTimestamp : Nat
  Generation : Int
  Finalizers : List String
  OwnerReferences : List String
deriving Repr, DecidableEq

/-- Embeds `corev1.PodCondition` (fields used: `Type`, `Status`).  The Go field
`Type` is a reserved word in Lean and is embedded as `CondType`. -/
structure PodCondition where
  CondType : String
  Status : String
deriving Repr, DecidableEq

/-- Embeds `corev1.ContainerState`: exactly one of the three pointers is set; the
states' inner payloads are opaque to this controller. -/
structure ContainerState where
  Waiting : Option String
  Running : Option String
  Terminated : Option String
deriving Repr, DecidableEq

/-- Embeds `corev1.ContainerStatus` (fields used: `Name`, `Ready`, `State`). -/
structure ContainerStatus where
  Name : String
  Ready : Bool
  State : ContainerState
deriving Repr, DecidableEq

/-- Embeds `corev1.PodStatus`: the fields kept by `FilterPodFields` plus
representative transient fields (`Message`, `HostIP`, `PodIP`) that the
rebuilt status drops to their zero values. -/
structure PodStatus where
  Phase : String
  Conditions : List PodCondition
  ContainerStatuses : List ContainerStatus
  Message : String
  HostIP : String
  PodIP : String
deriving Repr, DecidableEq

/-- Embeds `corev1.Pod`: metadata + status (+ an opaque spec, copied verbatim by
`DeepCopy` and untouched by the filter). -/
structure Pod where
  Metadata : ObjectMeta
  Spec : String
  Status : PodStatus
deriving Repr, DecidableEq

/-- Go `FilterPodFields(pod *corev1.Pod) *corev1.Pod`.  The source indexes
`Status.Conditions[len(Conditions)-1]` and `Status.ContainerStatuses[0]`
unconditionally; on an empty conditions or container-status slice that is an
index-out-of-range panic, modeled here as `none`. -/
def FilterPodFields (pod : Pod) : Option Pod :=
  match pod.Status.Conditions.getLast?, pod.Status.ContainerStatuses.head? with
  | some lastCond, some firstStatus =>
    some
      { Metadata :=
          { pod.Metadata with
            ManagedFields := []
            ResourceVersion := ""
            UID := ""
            CreationTimestamp := 0
            Generation := 0
            Finalizers := []
            OwnerReferences := [] }
        Spec := pod.Spec
        Status :=
          { Phase := pod.Status.Phase
            Conditions := [{ CondType := "Ready", Status := lastCond.Status }]
            ContainerStatuses :=
              [{ Name := firstStatus.Name
                 Ready := firstStatus.Ready
                 State := firstStatus.State }]
            Message := ""
            HostIP := ""
            PodIP := "" } }
  | _, _ => none

/-! Evidence-report assembly: `BuildEventString`. -/

/-- The pure assembly step of `BuildEventString`, applied to the results of
the three sub-queries (resource YAML, Prometheus alerts text, Loki logs
text).  Mirrors the Go `strings.Builder` sequence: resource header and block
verbatim, then alerts header with a "No firing alerts" sentinel when empty,
then logs header with a "No error logs" sentinel when empty. -/
def BuildEventString (resourceYAML prometheusAlerts lokiLogs : String) :
    String :=
  "=== Target Resource Information ===\n" ++ resourceYAML ++
  "\n=== Prometheus Alerts ===\n" ++
  (if prometheusAlerts == "" then "No firing alerts\n" else prometheusAlerts) ++
  "\n=== Loki Error Logs ===\n" ++
  (if lokiLogs == "" then "No error logs\n" else lokiLogs)

/-! Target pod listing: `GetTargetPods` and the cluster-list collaborator boundary. -/

/-- Embeds `metav1.LabelSelectorRequirement` (key, operator, values). -/
structure LabelSelectorRequirement where
  Key : String
  Operator : String
  Values : List String
deriving Repr, DecidableEq

/-- Embeds `metav1.LabelSelector`: `MatchLabels`/`MatchExpressions` are nil-able in
Go (`Option` here); the controller branches on their nil-ness. -/
structure LabelSelector where
  MatchLabels : Option (List (String × String))
  MatchExpressions : Option (List LabelSelectorRequirement)
deriving Repr, DecidableEq

/-- Embeds `autofixv1.TargetSelector` (api/v1): namespace + label selector. -/
structure TargetSelector where
  Namespace : String
  Selector : LabelSelector
deriving Repr, DecidableEq

/-- One resolved selector requirement, as produced by the apimachinery
`LabelSelectorAsSelector` conversion. -/
inductive Requirement where
  | isIn (key : String) (values : List String) : Requirement
  | notIn (key : String) (values : List String) : Requirement
  | exists_ (key : String) : Requirement
  | doesNotExist (key : String) : Requirement
deriving Repr, DecidableEq

/-- Label lookup in a pod's label map. -/
def labelValue (labels : List (String × String)) (key : String) :
    Option String :=
  (labels.find? (fun kv => kv.1 == key)).map (·.2)

/-- Requirement evaluation against a label map, following the apimachinery
`labels.Requirement.Matches` semantics (a `NotIn` requirement is satisfied
by a pod that lacks the key entirely). -/
def Requirement.matches (r : Requirement) (labels : List (String × String)) :
    Bool :=
  match r with
  | .isIn key values =>
    match labelValue labels key with
    | some v => values.contains v
    | none => false
  | .notIn key values =>
    match labelValue labels key with
    | some v => !(values.contains v)
    | none => true
  | .exists_ key => (labelValue labels key).isSome
  | .doesNotExist key => (labelValue labels key).isNone

/-- Models the apimachinery library function `metav1.LabelSelectorAsSelector`
at the collaborator boundary: each `matchLabels` pair becomes an equality
(`In` with a single value) requirement; each `matchExpressions` entry
becomes a requirement after operator/values validation. -/
def labelSelectorAsSelector (ps : LabelSelector) :
    Except String (List Requirement) :=
  let fromLabels := (ps.MatchLabels.getD []).map
    (fun kv => Requirement.isIn kv.1 [kv.2])
  let exprResults := (ps.MatchExpressions.getD []).map
    (fun e =>
      if e.Operator == "In" then
        if e.Values.isEmpty then
          Except.error "for In operator, values set cannot be empty"
        else Except.ok (Requirement.isIn e.Key e.Values)
      else if e.Operator == "NotIn" then
        if e.Values.isEmpty then
          Except.error "for NotIn operator, values set cannot be empty"
        else Except.ok (Requirement.notIn e.Key e.Values)
      else if e.Operator == "Exists" then
        if e.Values.isEmpty then Except.ok (Requirement.exists_ e.Key)
        else Except.error "values set must be empty for exists and does not exist"
      else if e.Operator == "DoesNotExist" then
        if e.Values.isEmpty then Except.ok (Requirement.doesNotExist e.Key)
        else Except.error "values set must be empty for exists and does not exist"
      else Except.error "is not a valid label selector operator")
  exprResults.foldl
    (fun acc r =>
      match acc, r with
      | .error e, _ => .error e
      | .ok _, .error e => .error e
      | .ok rs, .ok req => .ok (rs ++ [req]))
    (Except.ok fromLabels)

/-- Embeds `client.ListOptions`: the namespace scope and optional label selector
passed to the cluster client's `List`. -/
structure ListOptions where
  Namespace : String
  LabelSelector : Option (List Requirement)
deriving Repr, DecidableEq

/-- Models the cluster client's `List` at the collaborator boundary: an
empty `Namespace` in the options means all namespaces, a non-empty one
restricts the listing to that namespace; a present selector keeps only pods
whose labels satisfy every requirement. -/
def listPods (cluster : List Pod) (opts : ListOptions) : List Pod :=
  cluster.filter (fun p =>
    (opts.Namespace == "" || p.Metadata.Namespace == opts.Namespace) &&
    (match opts.LabelSelector with
     | none => true
     | some reqs => reqs.all (fun r => r.matches p.Metadata.Labels)))

/-- Go `GetTargetPods(ctx, target)`, with the cluster's pods passed explicitly
in place of the cluster client.  An empty `target.Namespace` falls back to
`corev1.NamespaceDefault` (the literal "default"); a configured selector is
converted with `LabelSelectorAsSelector` (whose failure aborts the call). -/
def GetTargetPods (cluster : List Pod) (target : TargetSelector) :
    Except String (List Pod) :=
  let ns := if target.Namespace == "" then "default" else target.Namespace
  if target.Selector.MatchLabels.isSome ||
      target.Selector.MatchExpressions.isSome then
    match labelSelectorAsSelector target.Selector with
    | .error e => .error e
    | .ok sel =>
      .ok (listPods cluster { Namespace := ns, LabelSelector := some sel })
  else
    .ok (listPods cluster { Namespace := ns, LabelSelector := none })

/-! Notification payload construction. -/

/-- Embeds `CardVariables` as defined in the feishu `sendCard.go` and in the
standalone dispatch file (fields `resolve_fuction`, `namespace`, `name`,
`request_id`). -/
structure CardVariables where
  ResolveFunction : String
  Namespace : String
  Name : String
  RequestID : String
deriving Repr, DecidableEq

/-- Embeds `CardMessage`: recipient, template identity, and the card variables. -/
structure CardMessage where
  ReceiveID : String
  ReceiveType : String
  TemplateID : String
  Version : String
  Variables : CardVariables
deriving Repr, DecidableEq

/-- Go `NewCardMessage`. -/
def NewCardMessage (receiveID receiveType templateID version : String)
    (vars : CardVariables) : CardMessage :=
  { ReceiveID := receiveID
    ReceiveType := receiveType
    TemplateID := templateID
    Version := version
    Variables := vars }

/-- Go `CreateHealActionCardMessage(v, receiveID, receiveType, templateID,
version)`.  The Go helper extracts `Reason`, `Target.Kind` and
`Target.LabelSelector` from `v` by reflection; at its only call site `v` is
a `*HealAction`, so the reflection lookups are embedded as direct field
reads.  Note the hardcoded `Namespace: "default"` and the fixed
`RequestID`. -/
def CreateHealActionCardMessage (v : HealAction)
    (receiveID receiveType templateID version : String) : CardMessage :=
  NewCardMessage receiveID receiveType templateID version
    { ResolveFunction := v.Reason
      Namespace := "default"
      Name := v.Target.LabelSelector
      RequestID := "FEISHU-TEST-ABC-123" }

/-- The card-variable struct populated by the controller's `Reconcile`
dispatch (the feishu package revision it imports carries these fields, as
fixed by the struct literal at the call site). -/
structure ReconcileCardVariables where
  Reason : String
  Patch : String
  Patches : List PatchOp
  ResolveFunction : String
  Namespace : String
  Name : String
  RequestID : String

/-- Go `fmt.Sprintf("%v", ...)` rendering of a `[]PatchOp`, kept as an
opaque textual rendering of the ops (the payload is never parsed back). -/
def formatPatchContent (ops : List PatchOp) : String :=
  "[" ++ String.intercalate " "
    (ops.map (fun op => "\x7b" ++ op.Op ++ " " ++ op.Path ++ "\x7d")) ++ "]"

/-- The notification payload constructed by the `HealAction` branch of
`Reconcile` (`feishu.NewCardMessage(..., &feishu.CardVariables{...})`):
every field is copied from the validated `HealAction`; the request
identifier appends the dispatch timestamp (`time.Now().Unix()`, passed
explicitly here) to the patch file name. -/
def reconcileCardVariables (v : HealAction) (nowUnix : Int) :
    ReconcileCardVariables :=
  { Reason := v.Reason
    Patch := formatPatchContent v.PatchContent
    Patches := v.PatchContent
    ResolveFunction := v.Detail
    Namespace := v.Namespace
    Name := v.Target.LabelSelector
    RequestID := v.PatchFile ++ "-" ++ toString nowUnix }

/-! Auxiliary definitions used by the theorems: spec-side predicates,
result discriminators, and concrete fixtures. -/

/-- Modelled from the spec: `RiskLevel` is enumerated `{low, medium, high}`.
Stated from the spec's words, to be compared against the validation check in
`ParseAutoHealResponse`. -/
def RiskLevelValid (r : String) : Prop :=
  r = "low" ∨ r = "medium" ∨ r = "high"

instance decRiskLevelValid (r : String) : Decidable (RiskLevelValid r) :=
  inferInstanceAs (Decidable (r = "low" ∨ r = "medium" ∨ r = "high"))

/-- True exactly on the parse-base (JSON decode) error variant. -/
def isParseBaseErr : Except AutoHealErr Outcome → Bool
  | .error (.parseBase _) => true
  | _ => false

/-- True exactly on the successful-outcome variant. -/
def isOkOutcome : Except AutoHealErr Outcome → Bool
  | .ok _ => true
  | .error _ => false

/-- A JSON value that carries no `action` discriminant: a non-object value,
or an object none of whose keys matches the `action` field tag. -/
def lacksActionKey : Json → Bool
  | .obj kvs => !(kvs.any (fun kv => keyMatches kv.1 "action"))
  | _ => true

/-- A heal response whose `risk_level` is the out-of-range value "critical"
(the spec's own example of a value that must fail validation). -/
def jsonHealCritical : Json :=
  .obj [("action", .str "heal"), ("namespace", .str "order-prod"),
        ("reason", .str "cpu spike"), ("risk_level", .str "critical")]

/-- A heal response with a valid risk level whose single patch operation
uses the op "move", outside the replace/add/remove set. -/
def jsonHealMoveOp : Json :=
  .obj [("action", .str "heal"), ("risk_level", .str "low"),
        ("patch_content", .arr
          [.obj [("op", .str "move"), ("path", .str "/spec/replicas"),
                 ("value", .num 20)]])]

/-- The `HealAction` decoded from `jsonHealMoveOp`. -/
def healMoveOp : HealAction :=
  { healZero with
    Action := "heal"
    RiskLevel := "low"
    PatchContent := [⟨"move", "/spec/replicas", .num 20⟩] }

/-- A pod whose status carries no conditions and no container statuses
(e.g. a pod that was just created or failed scheduling). -/
def podWithEmptyStatus : Pod :=
  { Metadata := ⟨"order-service-0", "order-prod", [("app", "order-service")],
                 [], "", "", 0, 0, [], []⟩
    Spec := "containers: [app]"
    Status := ⟨"Pending", [], [], "", "", ""⟩ }

/-- A running pod with every bookkeeping field populated. -/
def podWithBookkeeping : Pod :=
  { Metadata := ⟨"order-service-1", "order-prod", [("app", "order-service")],
                 ["managed-entry"], "123456", "uid-1", 1700000000, 7,
                 ["protect"], ["ReplicaSet/order-service"]⟩
    Spec := "containers: [app]"
    Status := ⟨"Running", [⟨"PodScheduled", "True"⟩, ⟨"Ready", "True"⟩],
               [⟨"app", true, ⟨none, some "running", none⟩⟩],
               "all good", "10.0.0.1", "10.1.2.3"⟩ }

/-- The result of filtering `podWithBookkeeping`. -/
def podWithBookkeepingFiltered : Pod :=
  { Metadata := ⟨"order-service-1", "order-prod", [("app", "order-service")],
                 [], "", "", 0, 0, [], []⟩
    Spec := "containers: [app]"
    Status := ⟨"Running", [⟨"Ready", "True"⟩],
               [⟨"app", true, ⟨none, some "running", none⟩⟩], "", "", ""⟩ }

/-- A validated heal action for the order-service workload. -/
def healOrderService : HealAction :=
  { Namespace := "order-prod"
    Action := "heal"
    Reason := "扩容缓解 CPU 饱和"
    Detail := "replicas 10 -> 20"
    PatchFile := "20251126-204555-cpu-spike.yaml"
    PatchContent := [⟨"replace", "/spec/replicas", .num 20⟩]
    Target := ⟨"Deployment", "app.kubernetes.io/name=order-service"⟩
    SuggestedDuration := "30m"
    RiskLevel := "low" }

/-- A two-pod cluster: one pod in "default", one in "order-prod". -/
def clusterTwoNamespaces : List Pod :=
  [{ Metadata := ⟨"a", "default", [("app", "x")], [], "", "", 0, 0, [], []⟩
     Spec := ""
     Status := ⟨"Running", [], [], "", "", ""⟩ },
   { Metadata := ⟨"b", "order-prod", [("app", "x")], [], "", "", 0, 0, [], []⟩
     Spec := ""
     Status := ⟨"Running", [], [], "", "", ""⟩ }]

/-! Helper lemmas characterizing the parser's branches. -/

lemma riskGuard_false_iff (r : String) :
    ((r != "low" && r != "medium" && r != "high") = false) ↔
      RiskLevelValid r := by
  simp only [Bool.and_eq_false_iff, bne_eq_false_iff_eq, RiskLevelValid]
  tauto

lemma parse_base_error_eq (j : Json) (m : String)
    (hb : unmarshalBase j = .error m) :
    ParseAutoHealResponse (some j) = .error (.parseBase m) := by
  simp [ParseAutoHealResponse, hb]

lemma parse_heal_branch_eq (j : Json) (b : BaseResp)
    (hb : unmarshalBase j = .ok b) (ha : b.Action = "heal") :
    ParseAutoHealResponse (some j) =
      match unmarshalHeal j with
      | .error m => .error (.unmarshalFailed m)
      | .ok heal =>
        if heal.RiskLevel != "low" && heal.RiskLevel != "medium" &&
            heal.RiskLevel != "high" then
          .error (.invalidRiskLevel heal.RiskLevel)
        else
          .ok (.heal heal) := by
  simp [ParseAutoHealResponse, hb, ha]

lemma parse_unknown_branch_eq (j : Json) (b : BaseResp)
    (hb : unmarshalBase j = .ok b) (h1 : b.Action ≠ "heal")
    (h2 : b.Action ≠ "noop") :
    ParseAutoHealResponse (some j) = .error (.unknownAction b.Action) := by
  simp [ParseAutoHealResponse, hb, h1, h2]

lemma baseFold_action_of_no_key (kvs : List (String × Json)) :
    ∀ acc b, (∀ kv ∈ kvs, keyMatches kv.1 "action" = false) →
      baseFold acc kvs = .ok b → b.Action = acc.Action := by
  induction kvs with
  | nil =>
    intro acc b _ hEq
    simp only [baseFold] at hEq
    cases hEq
    rfl
  | cons kv rest ih =>
    intro acc b hno hEq
    have hkv : keyMatches kv.1 "action" = false :=
      hno kv (List.mem_cons_self kv rest)
    rw [baseFold] at hEq
    cases hstep : baseStep acc kv with
    | error e =>
      simp only [hstep] at hEq
      exact absurd hEq (by simp)
    | ok acc2 =>
      simp only [hstep] at hEq
      have hact2 : acc2.Action = acc.Action := by
        simp only [baseStep, hkv, Bool.false_eq_true, if_false] at hstep
        split at hstep
        · split at hstep
          · simp at hstep
          · cases hstep
            rfl
        · cases hstep
          rfl
      rw [ih acc2 b (fun x hx => hno x (List.mem_cons_of_mem kv hx)) hEq,
        hact2]

lemma listPods_namespace_scoped (cluster : List Pod) (opts : ListOptions)
    (hns : (opts.Namespace == "") = false) :
    (listPods cluster opts).all
      (fun p => p.Metadata.Namespace == opts.Namespace) = true := by
  rw [List.all_eq_true]
  intro p hp
  have := List.of_mem_filter hp
  rw [Bool.and_eq_true, Bool.or_eq_true, hns] at this
  simpa using this.1

/-! Claim theorems. -/

/-- C1: for every response text that is valid JSON whose base decode gives
action "heal", `ParseAutoHealResponse` returns a `HealAction` only when the
decoded `risk_level` is exactly "low", "medium" or "high"; for any other
decoded `risk_level`, including the empty string, it returns the
invalid-risk-level validation error (never a defaulted or clamped heal). -/
theorem parseAutoHealResponse_risk_level_validated (j : Json) :
    (∀ h : HealAction, ParseAutoHealResponse (some j) = .ok (.heal h) →
      RiskLevelValid h.RiskLevel) ∧
    (∀ (b : BaseResp) (h : HealAction), unmarshalBase j = .ok b →
      b.Action = "heal" → unmarshalHeal j = .ok h →
      ¬ RiskLevelValid h.RiskLevel →
      ParseAutoHealResponse (some j) =
        .error (.invalidRiskLevel h.RiskLevel)) := by
  constructor
  · intro h hEq
    unfold ParseAutoHealResponse at hEq
    split at hEq
    · exact absurd hEq (by simp)
    next j2 hj =>
      cases hb : unmarshalBase j2 with
      | error m => rw [hb] at hEq; simp at hEq
      | ok b =>
        rw [hb] at hEq
        simp only at hEq
        split at hEq
        · split at hEq
          · simp at hEq
          · split at hEq
            · simp at hEq
            next heal _ hguard =>
              simp only [Except.ok.injEq, Outcome.heal.injEq] at hEq
              subst hEq
              rw [← riskGuard_false_iff]
              simpa using hguard
        · split at hEq
          · split at hEq <;> simp_all
          · simp at hEq
  · intro b h hb ha hh hr
    rw [parse_heal_branch_eq j b hb ha, hh]
    simp only
    have hg : (h.RiskLevel != "low" && h.RiskLevel != "medium" &&
        h.RiskLevel != "high") = true := by
      cases hg2 : (h.RiskLevel != "low" && h.RiskLevel != "medium" &&
          h.RiskLevel != "high") with
      | false => exact absurd ((riskGuard_false_iff _).mp hg2) hr
      | true => rfl
    rw [if_pos hg]

theorem parseAutoHealResponse_risk_level_validated_witness :
    ParseAutoHealResponse (some jsonHealCritical) =
      .error (.invalidRiskLevel "critical") :=
  (parseAutoHealResponse_risk_level_validated jsonHealCritical).2
    ⟨"heal", "cpu spike"⟩
    { healZero with
      Namespace := "order-prod"
      Action := "heal"
      Reason := "cpu spike"
      RiskLevel := "critical" }
    rfl rfl rfl (by decide)

/-- C3: for every response text that is valid JSON whose decoded action is
outside the heal/noop set, `ParseAutoHealResponse` returns the
unknown-action error carrying the offending action value, and never a
`NoopAction`. -/
theorem parseAutoHealResponse_unknown_action (j : Json) (b : BaseResp)
    (hb : unmarshalBase j = .ok b) (h1 : b.Action ≠ "heal")
    (h2 : b.Action ≠ "noop") :
    ParseAutoHealResponse (some j) = .error (.unknownAction b.Action) ∧
    ∀ n : NoopAction, ParseAutoHealResponse (some j) ≠ .ok (.noop n) := by
  refine ⟨parse_unknown_branch_eq j b hb h1 h2, ?_⟩
  intro n hEq
  rw [parse_unknown_branch_eq j b hb h1 h2] at hEq
  exact absurd hEq (by simp)

theorem parseAutoHealResponse_unknown_action_witness :
    ParseAutoHealResponse (some (.obj [("action", .str "ignore")])) =
      .error (.unknownAction "ignore") :=
  (parseAutoHealResponse_unknown_action (.obj [("action", .str "ignore")])
    ⟨"ignore", ""⟩ rfl (by decide) (by decide)).1

/-- C4 counterexample: the empty JSON object is valid JSON lacking the
`action` discriminant, yet `ParseAutoHealResponse` does not return the base
ParseError there — it falls through to the unknown-action error with the
empty action value. -/
theorem parseAutoHealResponse_missing_action_not_parse_error :
    ParseAutoHealResponse (some (.obj [])) = .error (.unknownAction "") ∧
    isParseBaseErr (ParseAutoHealResponse (some (.obj []))) = false :=
  ⟨rfl, rfl⟩

/-- C4 (amended): text that is not valid JSON yields the base ParseError and
no outcome; valid JSON lacking the `action` discriminant also yields an
error and no outcome, but that error is the unknown-action error with the
empty string (or a base decode type error when the JSON value is neither an
object nor null), not necessarily the ParseError. -/
theorem parseAutoHealResponse_no_outcome_without_discriminant :
    ParseAutoHealResponse none = .error (.parseBase "invalid JSON syntax") ∧
    (∀ j, lacksActionKey j = true →
      isOkOutcome (ParseAutoHealResponse (some j)) = false ∧
      (ParseAutoHealResponse (some j) = .error (.unknownAction "") ∨
        ∃ m, ParseAutoHealResponse (some j) = .error (.parseBase m))) := by
  refine ⟨rfl, ?_⟩
  intro j hj
  have key : ParseAutoHealResponse (some j) = .error (.unknownAction "") ∨
      ∃ m, ParseAutoHealResponse (some j) = .error (.parseBase m) := by
    cases j with
    | null => exact Or.inl rfl
    | bool b => exact Or.inr ⟨_, rfl⟩
    | num n => exact Or.inr ⟨_, rfl⟩
    | str s => exact Or.inr ⟨_, rfl⟩
    | arr xs => exact Or.inr ⟨_, rfl⟩
    | obj kvs =>
      simp only [lacksActionKey, Bool.not_eq_true', List.any_eq_false] at hj
      cases hb : baseFold ⟨"", ""⟩ kvs with
      | error m =>
        exact Or.inr ⟨m, parse_base_error_eq _ m
          (by simpa [unmarshalBase] using hb)⟩
      | ok b =>
        have hact : b.Action = "" :=
          baseFold_action_of_no_key kvs ⟨"", ""⟩ b
            (fun x hx => by simpa using hj x hx) hb
        refine Or.inl ?_
        have := parse_unknown_branch_eq (.obj kvs) b
          (by simpa [unmarshalBase] using hb)
          (by rw [hact]; decide) (by rw [hact]; decide)
        rw [this, hact]
  refine ⟨?_, key⟩
  rcases key with h | ⟨m, h⟩ <;> rw [h] <;> rfl

theorem parseAutoHealResponse_no_outcome_without_discriminant_witness :
    lacksActionKey (.obj [("reason", .str "r")]) = true ∧
    isOkOutcome
      (ParseAutoHealResponse (some (.obj [("reason", .str "r")]))) = false :=
  ⟨rfl, (parseAutoHealResponse_no_outcome_without_discriminant.2
    (.obj [("reason", .str "r")]) rfl).1⟩

/-- C8 counterexample: a heal response with valid risk level and a patch op
"move" (not one of replace/add/remove) is accepted, not rejected. -/
theorem parseAutoHealResponse_accepts_foreign_patch_op :
    ParseAutoHealResponse (some jsonHealMoveOp) = .ok (.heal healMoveOp) ∧
    healMoveOp.PatchContent.any
      (fun op => !(op.Op == "replace" || op.Op == "add" || op.Op == "remove"))
      = true :=
  ⟨rfl, rfl⟩

/-- C8 (amended): `ParseAutoHealResponse` performs no validation of the
`patch_content` ops — a heal response with a valid `risk_level` is returned
as a `HealAction` whatever the decoded op values are; the
replace/add/remove constraint exists only in the prompt contract, not in
the parser. -/
theorem parseAutoHealResponse_no_patch_op_validation (j : Json) (b : BaseResp)
    (h : HealAction) (hb : unmarshalBase j = .ok b) (ha : b.Action = "heal")
    (hh : unmarshalHeal j = .ok h) (hr : RiskLevelValid h.RiskLevel) :
    ParseAutoHealResponse (some j) = .ok (.heal h) := by
  rw [parse_heal_branch_eq j b hb ha, hh]
  simp only
  rw [if_neg]
  rw [Bool.not_eq_true, riskGuard_false_iff]
  exact hr

theorem parseAutoHealResponse_no_patch_op_validation_witness :
    ParseAutoHealResponse (some jsonHealMoveOp) = .ok (.heal healMoveOp) :=
  parseAutoHealResponse_no_patch_op_validation jsonHealMoveOp ⟨"heal", ""⟩
    healMoveOp rfl rfl rfl (by decide)

/-- C2: `FilterPodFields` is not total — on a pod with zero conditions (and
zero container statuses) the source indexes the last condition and the
first container status and panics with an index-out-of-range error; the
embedding returns `none` (no filtered pod is produced) at that input. -/
theorem filterPodFields_panics_on_empty_status :
    FilterPodFields podWithEmptyStatus = none := rfl

/-- C7: whenever `FilterPodFields` returns a filtered pod, that pod carries
none of the mutable cluster bookkeeping fields: resource version is empty,
generation is zero, and owner references, finalizers and managed-field
metadata are nil — so none of them can appear in the resource YAML rendered
from the filtered pods. -/
theorem filterPodFields_strips_bookkeeping (p q : Pod)
    (h : FilterPodFields p = some q) :
    q.Metadata.ResourceVersion = "" ∧ q.Metadata.Generation = 0 ∧
    q.Metadata.OwnerReferences = [] ∧ q.Metadata.Finalizers = [] ∧
    q.Metadata.ManagedFields = [] := by
  unfold FilterPodFields at h
  split at h
  · cases h
    exact ⟨rfl, rfl, rfl, rfl, rfl⟩
  · exact absurd h (by simp)

theorem filterPodFields_strips_bookkeeping_witness :
    podWithBookkeepingFiltered.Metadata.ResourceVersion = "" ∧
    podWithBookkeepingFiltered.Metadata.Generation = 0 ∧
    podWithBookkeepingFiltered.Metadata.OwnerReferences = [] ∧
    podWithBookkeepingFiltered.Metadata.Finalizers = [] ∧
    podWithBookkeepingFiltered.Metadata.ManagedFields = [] :=
  filterPodFields_strips_bookkeeping podWithBookkeeping
    podWithBookkeepingFiltered (by rfl)

/-- C5: for every combination of sub-query results (resource YAML, alerts
text, logs text, each possibly empty), the evidence report contains the
three section headers in the fixed order: target resource information, then
Prometheus alerts, then Loki error logs. -/
theorem buildEventString_section_order (r a l : String) :
    ∃ s1 s2 s3,
      BuildEventString r a l =
        "=== Target Resource Information ===\n" ++ s1 ++
        "=== Prometheus Alerts ===\n" ++ s2 ++
        "=== Loki Error Logs ===\n" ++ s3 := by
  refine ⟨r ++ "\n",
    (if a == "" then "No firing alerts\n" else a) ++ "\n",
    (if l == "" then "No error logs\n" else l), ?_⟩
  simp only [BuildEventString]
  rw [show ("\n=== Prometheus Alerts ===\n" : String) =
        "\n" ++ "=== Prometheus Alerts ===\n" from rfl,
      show ("\n=== Loki Error Logs ===\n" : String) =
        "\n" ++ "=== Loki Error Logs ===\n" from rfl]
  simp [String.append_assoc]

/-- C6 counterexample: with an empty resource block, the report's resource
header is immediately followed by the alerts header — there is no explicit
"none" sentinel line under the resource-information section (unlike the
alerts and logs sections). -/
theorem buildEventString_empty_resource_has_no_sentinel :
    BuildEventString "" "" "" =
      "=== Target Resource Information ===\n" ++
      "\n=== Prometheus Alerts ===\n" ++ "No firing alerts\n" ++
      "\n=== Loki Error Logs ===\n" ++ "No error logs\n" := by
  rfl

/-- C6 (amended): the alerts and logs sections each get an explicit "none"
sentinel line when their source returned nothing ("No firing alerts",
"No error logs"), but the resource-information section gets no sentinel: an
empty resource block leaves the resource header immediately followed by the
alerts header. -/
theorem buildEventString_sentinels (r a l : String) :
    (a = "" → ∃ s t, BuildEventString r a l =
      s ++ "=== Prometheus Alerts ===\n" ++ "No firing alerts\n" ++ t) ∧
    (l = "" → ∃ s, BuildEventString r a l =
      s ++ "=== Loki Error Logs ===\n" ++ "No error logs\n") ∧
    (r = "" → ∃ t, BuildEventString r a l =
      "=== Target Resource Information ===\n" ++
      "\n=== Prometheus Alerts ===\n" ++ t) := by
  refine ⟨?_, ?_, ?_⟩
  · intro ha
    subst ha
    refine ⟨"=== Target Resource Information ===\n" ++ r ++ "\n",
      "\n=== Loki Error Logs ===\n" ++
        (if l == "" then "No error logs\n" else l), ?_⟩
    simp only [BuildEventString]
    rw [show ("\n=== Prometheus Alerts ===\n" : String) =
          "\n" ++ "=== Prometheus Alerts ===\n" from rfl]
    simp only [String.append_assoc]
    rfl
  · intro hl
    subst hl
    refine ⟨"=== Target Resource Information ===\n" ++ r ++
      "\n=== Prometheus Alerts ===\n" ++
      (if a == "" then "No firing alerts\n" else a) ++ "\n", ?_⟩
    simp only [BuildEventString]
    rw [show ("\n=== Loki Error Logs ===\n" : String) =
          "\n" ++ "=== Loki Error Logs ===\n" from rfl]
    simp [String.append_assoc]
  · intro hr
    subst hr
    refine ⟨(if a == "" then "No firing alerts\n" else a) ++
      "\n=== Loki Error Logs ===\n" ++
      (if l == "" then "No error logs\n" else l), ?_⟩
    simp only [BuildEventString]
    simp [String.append_assoc]

theorem buildEventString_sentinels_witness :
    ∃ t, BuildEventString "" "" "" =
      "=== Target Resource Information ===\n" ++
      "\n=== Prometheus Alerts ===\n" ++ t :=
  (buildEventString_sentinels "" "" "").2.2 rfl

/-- C9 counterexample: the standalone `CreateHealActionCardMessage` dispatch
hardcodes the payload namespace to "default", so the payload's namespace is
not byte-identical to the `HealAction`'s namespace ("order-prod" here). -/
theorem createHealActionCardMessage_namespace_not_roundtripped :
    (CreateHealActionCardMessage healOrderService
        "oc_fb3b64606e33897e741fc355529e5784" "chat_id" "AAqhGHg0Wgux8"
        "0.0.6").Variables.Namespace ≠ healOrderService.Namespace := by
  decide

/-- C9 (amended): the controller's `Reconcile` dispatch builds a payload
whose namespace and name fields are byte-identical to the `HealAction`'s
`Namespace` and `Target.LabelSelector`; the standalone
`CreateHealActionCardMessage` helper keeps only the name/selector
round-trip and hardcodes namespace "default". -/
theorem reconcile_card_payload_roundtrip (v : HealAction) (nowUnix : Int)
    (receiveID receiveType templateID version : String) :
    (reconcileCardVariables v nowUnix).Namespace = v.Namespace ∧
    (reconcileCardVariables v nowUnix).Name = v.Target.LabelSelector ∧
    (CreateHealActionCardMessage v receiveID receiveType templateID
      version).Variables.Name = v.Target.LabelSelector ∧
    (CreateHealActionCardMessage v receiveID receiveType templateID
      version).Variables.Namespace = "default" :=
  ⟨rfl, rfl, rfl, rfl⟩

/-- C10: `GetTargetPods` scopes the listing to a single namespace: the
target's namespace when non-empty, the cluster default namespace "default"
otherwise — every returned pod lives in that namespace (never a
cross-namespace listing), and an empty target namespace behaves exactly
like the namespace "default". -/
theorem getTargetPods_namespace_defaulting (cluster : List Pod)
    (target : TargetSelector) :
    (((GetTargetPods cluster target).toOption.getD []).all
      (fun p => p.Metadata.Namespace ==
        (if target.Namespace == "" then "default" else target.Namespace))
      = true) ∧
    (target.Namespace = "" →
      GetTargetPods cluster target =
        GetTargetPods cluster { target with Namespace := "default" }) := by
  constructor
  · have main : ∀ ns : String, (ns == "") = false →
        (((if target.Selector.MatchLabels.isSome ||
              target.Selector.MatchExpressions.isSome then
            match labelSelectorAsSelector target.Selector with
            | .error e => (Except.error e : Except String (List Pod))
            | .ok sel => .ok (listPods cluster ⟨ns, some sel⟩)
          else
            .ok (listPods cluster ⟨ns, none⟩)).toOption.getD []).all
          (fun p => p.Metadata.Namespace == ns)) = true := by
      intro ns hns
      split
      · cases hconv : labelSelectorAsSelector target.Selector with
        | error e =>
          simp only [hconv, Except.toOption, Option.getD]
          rfl
        | ok sel =>
          simp only [hconv, Except.toOption, Option.getD]
          exact listPods_namespace_scoped cluster ⟨ns, some sel⟩ hns
      · exact listPods_namespace_scoped cluster ⟨ns, none⟩ hns
    have hns : ((if target.Namespace == "" then "default"
        else target.Namespace) == "") = false := by
      cases h : target.Namespace == "" with
      | true => simp
      | false => simpa using h
    exact main _ hns
  · intro h
    obtain ⟨tns, tsel⟩ := target
    simp only at h
    subst h
    rfl

theorem getTargetPods_namespace_defaulting_witness :
    GetTargetPods clusterTwoNamespaces ⟨"", ⟨some [("app", "x")], none⟩⟩ =
      GetTargetPods clusterTwoNamespaces
        ⟨"default", ⟨some [("app", "x")], none⟩⟩ :=
  (getTargetPods_namespace_defaulting clusterTwoNamespaces
    ⟨"", ⟨some [("app", "x")], none⟩⟩).2 rfl
